import Mathlib

/-!
Verification of the 3D-object-tracking sensor-fusion core
(camFusion_Student.cpp) against its natural-language specification.

The C++ code is shallowly embedded: `double`/`float` arithmetic is modelled
exactly over `ℚ`, C++ `int` over `ℤ`, `std::vector` over `List`, and the
output parameters of the C++ functions become return values.  A `double`
that the code may set to `NAN`, and a vector access that would be out of
bounds in C++, are both modelled with `Option`; the individual definitions
document which of the two a `none` stands for.  `cv::norm` (an external
OpenCV collaborator, an irrational Euclidean norm) is passed in as an
explicit function parameter `normF`.
-/

/-- Model of `cv::KeyPoint`: only the subpixel position `pt` is used. -/
structure KeyPoint where
  pt : ℚ × ℚ
deriving DecidableEq, Inhabited

/-- Model of `cv::DMatch`: indices into the two keypoint lists plus the
descriptor distance. -/
structure DMatch where
  queryIdx : Nat
  trainIdx : Nat
  distance : ℚ
deriving DecidableEq, Inhabited

/-- Model of `LidarPoint` from dataStructures.h: 3D position and
reflectivity `rCoef`. -/
structure LidarPoint where
  x : ℚ
  y : ℚ
  z : ℚ
  rCoef : ℚ
deriving DecidableEq, Inhabited

/-- Model of `cv::Rect` (the `int` instantiation used for `roi`). -/
structure CvRect where
  x : Int
  y : Int
  width : Int
  height : Int
deriving DecidableEq, Inhabited

/-- Model of `BoundingBox` from dataStructures.h (the fields the core
touches). -/
structure BoundingBox where
  boxID : Int
  roi : CvRect
  lidarPoints : List LidarPoint
  kptMatches : List DMatch
deriving DecidableEq, Inhabited

/-- Model of `DataFrame` (the fields used by `matchBoundingBoxes`). -/
structure DataFrame where
  keypoints : List KeyPoint
  boundingBoxes : List BoundingBox
deriving DecidableEq, Inhabited

/-- C++ `double → int` conversion: truncation toward zero. -/
def ratTrunc (q : ℚ) : Int := q.num.tdiv q.den

/-- Floor of a rational as an integer (the denominator is positive). -/
def ratFloor (q : ℚ) : Int := q.num.fdiv q.den

/-- OpenCV `cvRound` / `saturate_cast<int>(float)`: round to nearest,
ties to even (the conversion applied when a `cv::Point2f` keypoint is
passed to `cv::Rect2i::contains`). -/
def cvRound (q : ℚ) : Int :=
  let f := ratFloor q
  let frac := q - (f : ℚ)
  if frac < 1/2 then f
  else if 1/2 < frac then f + 1
  else if f % 2 = 0 then f else f + 1

/-- `cv::Rect_<int>::contains` on an integer pixel:
`x ≤ px < x + width ∧ y ≤ py < y + height`. -/
def rectContains (rct : CvRect) (p : Int × Int) : Bool :=
  decide (rct.x ≤ p.1) && decide (p.1 < rct.x + rct.width) &&
  decide (rct.y ≤ p.2) && decide (p.2 < rct.y + rct.height)

/-- Containment test for a subpixel (`Point2f`) position: OpenCV first
converts the point to integer coordinates with `cvRound`. -/
def rectContainsF (rct : CvRect) (p : ℚ × ℚ) : Bool :=
  rectContains rct (cvRound p.1, cvRound p.2)

/-- The shrunk search rectangle built inside `clusterLidarWithROI`:
`smallerBox.x = roi.x + shrinkFactor * roi.width / 2.0` (then truncated to
`int` by the assignment), and similarly for `y`, `width`, `height`. -/
def shrinkRect (shrinkFactor : ℚ) (roi : CvRect) : CvRect :=
  { x := ratTrunc ((roi.x : ℚ) + shrinkFactor * (roi.width : ℚ) / 2)
    y := ratTrunc ((roi.y : ℚ) + shrinkFactor * (roi.height : ℚ) / 2)
    width := ratTrunc ((roi.width : ℚ) * (1 - shrinkFactor))
    height := ratTrunc ((roi.height : ℚ) * (1 - shrinkFactor)) }

/-- Projection of a Lidar point into the image:
`Y = P_rect_xx * R_rect_xx * RT * [x y z 1]ᵗ`, pixel `(Y₀/Y₂, Y₁/Y₂)`,
each coordinate truncated by the assignment to the `int` fields of
`cv::Point`.  (The staged matrix-vector products equal the code's
left-associated matrix product by associativity.) -/
def projectPoint (pMat rMat rtMat : Nat → Nat → ℚ) (p : LidarPoint) : Int × Int :=
  let xVec : Nat → ℚ := fun k =>
    if k = 0 then p.x else if k = 1 then p.y else if k = 2 then p.z else 1
  let mulVec : (Nat → Nat → ℚ) → (Nat → ℚ) → Nat → ℚ := fun m v i =>
    m i 0 * v 0 + m i 1 * v 1 + m i 2 * v 2 + m i 3 * v 3
  let yVec := mulVec pMat (mulVec rMat (mulVec rtMat xVec))
  (ratTrunc (yVec 0 / yVec 2), ratTrunc (yVec 1 / yVec 2))

/-- Append one Lidar point to the point set of the box at position `j`
(models `enclosingBoxes[0]->lidarPoints.push_back(*it1)`). -/
def appendAt : List BoundingBox → Nat → LidarPoint → List BoundingBox
  | [], _, _ => []
  | b :: bs, 0, p => { b with lidarPoints := b.lidarPoints ++ [p] } :: bs
  | b :: bs, j+1, p => b :: appendAt bs j p

/-- Indices of all bounding boxes whose shrunk rectangle contains the
pixel (the code's `enclosingBoxes` vector, as positions into the box
list). -/
def enclosingIdxs (boxes : List BoundingBox) (shrinkFactor : ℚ)
    (pix : Int × Int) : List Nat :=
  (List.range boxes.length).filter
    (fun j => rectContains (shrinkRect shrinkFactor (boxes.getD j default).roi) pix)

/-- One iteration of the Lidar-point loop of `clusterLidarWithROI`: the
point is added to a box exactly when `enclosingBoxes.size() == 1`. -/
def clusterStep (shrinkFactor : ℚ) (pMat rMat rtMat : Nat → Nat → ℚ)
    (boxes : List BoundingBox) (p : LidarPoint) : List BoundingBox :=
  match enclosingIdxs boxes shrinkFactor (projectPoint pMat rMat rtMat p) with
  | [j] => appendAt boxes j p
  | _ => boxes

/-- `clusterLidarWithROI(boundingBoxes, lidarPoints, shrinkFactor,
P_rect_xx, R_rect_xx, RT)`: the returned list is the final state of the
`boundingBoxes` argument. -/
def clusterLidarWithROI (boxes : List BoundingBox) (lidarPoints : List LidarPoint)
    (shrinkFactor : ℚ) (pMat rMat rtMat : Nat → Nat → ℚ) : List BoundingBox :=
  lidarPoints.foldl (clusterStep shrinkFactor pMat rMat rtMat) boxes

/-- Predicate selecting the matches clustered into a box by
`clusterKptMatchesWithROI`: the current-frame keypoint of the match lies
inside the (unshrunk) `roi`. -/
def enclosedByROI (roi : CvRect) (kptsCurr : List KeyPoint) (m : DMatch) : Bool :=
  rectContainsF roi (kptsCurr.getD m.trainIdx default).pt

/-- Mean descriptor distance of the matches whose current keypoint falls
inside the box (the code's `sumDist / boundingBox.kptMatches.size()` for a
box whose match set was empty on entry; division by zero — the `0.0/0`
`NaN` of the C++ code — is the rational `0/0 = 0`, which leaves the
observable result unchanged because nothing is compared against it on the
empty set). -/
def meanEnclosedDist (roi : CvRect) (kptsCurr : List KeyPoint)
    (kptMatches : List DMatch) : ℚ :=
  let encl := kptMatches.filter (enclosedByROI roi kptsCurr)
  (encl.map (fun m => m.distance)).sum / (encl.length : ℚ)

/-- `clusterKptMatchesWithROI(boundingBox, kptsPrev, kptsCurr, kptMatches)`:
appends every enclosed match to `boundingBox.kptMatches` while summing
their distances, then erases from the whole set every match with
`distance < 0.7 * meanDist`.  Returns the final state of `boundingBox`. -/
def clusterKptMatchesWithROI (boundingBox : BoundingBox)
    (_kptsPrev kptsCurr : List KeyPoint) (kptMatches : List DMatch) : BoundingBox :=
  let encl := kptMatches.filter (enclosedByROI boundingBox.roi kptsCurr)
  let withMatches := boundingBox.kptMatches ++ encl
  let sumDist := (encl.map (fun m => m.distance)).sum
  let meanDist := sumDist / (withMatches.length : ℚ)
  { boundingBox with
    kptMatches := withMatches.filter (fun m => !decide (m.distance < 7/10 * meanDist)) }

/-- `std::numeric_limits<double>::epsilon()`, exactly. -/
def epsD : ℚ := 1 / 2 ^ 52

/-- Componentwise difference of two subpixel points (the `cv::Point2f`
subtraction fed to `cv::norm`). -/
def subPt (a b : ℚ × ℚ) : ℚ × ℚ := (a.1 - b.1, a.2 - b.2)

/-- The list of surviving distance ratios collected by the double loop of
`computeTTCCamera`.  The outer iterator runs over positions
`0 … n-2` and the inner over positions `1 … n-1` of `kptMatches`; a ratio
`distCurr / distPrev` is kept exactly when
`distPrev > epsilon ∧ distCurr ≥ minDist` with `minDist = 100.0`.
(An empty match list gives no iterations; in C++ `kptMatches.end()-1` on
an empty vector would already be undefined.) -/
def distRatiosOf (normF : ℚ × ℚ → ℚ) (kptsPrev kptsCurr : List KeyPoint)
    (kptMatches : List DMatch) : List ℚ :=
  (List.range (kptMatches.length - 1)).flatMap (fun i =>
    (List.range' 1 (kptMatches.length - 1)).filterMap (fun j =>
      let m1 := kptMatches.getD i default
      let m2 := kptMatches.getD j default
      let keyCurrOuter := kptsCurr.getD m1.trainIdx default
      let keyPrevOuter := kptsPrev.getD m1.queryIdx default
      let keyCurrInner := kptsCurr.getD m2.trainIdx default
      let keyPrevInner := kptsPrev.getD m2.queryIdx default
      let distCurr := normF (subPt keyCurrOuter.pt keyCurrInner.pt)
      let distPrev := normF (subPt keyPrevOuter.pt keyPrevInner.pt)
      if epsD < distPrev ∧ 100 ≤ distCurr then some (distCurr / distPrev) else none))

/-- The median rule shared by both TTC estimators, applied to a list of
rationals: sort, take `medIdx = ⌊n/2⌋`; an even count averages the two
middle values, an odd count takes the single middle value. -/
def medianOf (l : List ℚ) : ℚ :=
  let s := List.insertionSort (fun a b : ℚ => a ≤ b) l
  let medIdx := l.length / 2
  if l.length % 2 = 0 then (s.getD (medIdx - 1) 0 + s.getD medIdx 0) / 2
  else s.getD medIdx 0

/-- `computeTTCCamera(kptsPrev, kptsCurr, kptMatches, frameRate, TTC)`.
The returned value is the `TTC` output parameter; `none` models the
`TTC = NAN` assignment taken when no distance ratio survives. -/
def computeTTCCamera (normF : ℚ × ℚ → ℚ) (kptsPrev kptsCurr : List KeyPoint)
    (kptMatches : List DMatch) (frameRate : ℚ) : Option ℚ :=
  let distRatios := distRatiosOf normF kptsPrev kptsCurr kptMatches
  if distRatios.length = 0 then none
  else some (-(1 / frameRate) / (1 - medianOf distRatios))

/-- The median forward distance taken by `computeTTCLidar` from one point
vector: sort by `x`, then read the middle point(s) at `medIdx = ⌊n/2⌋`.
`none` models the out-of-bounds access `[medIdx - 1]` performed on an
empty vector (the even branch, since `0 % 2 == 0`). -/
def medianXOf (l : List LidarPoint) : Option ℚ :=
  let s := List.insertionSort (fun a b : LidarPoint => a.x ≤ b.x) l
  let medIdx := s.length / 2
  if s.length % 2 = 0 then
    match s[medIdx - 1]?, s[medIdx]? with
    | some a, some b => some ((a.x + b.x) / 2)
    | _, _ => none
  else (s[medIdx]?).map (fun p => p.x)

/-- `computeTTCLidar(lidarPointsPrev, lidarPointsCurr, frameRate, TTC)`.
Returns the `TTC` output parameter together with the final states of the
two point vectors, which the function sorts in place by forward distance
`x`.  Here `none` models an out-of-bounds vector access on a degenerate
(empty) vector, not a `NaN` signal: the code contains no degeneracy
guard. -/
def computeTTCLidarFull (lidarPointsPrev lidarPointsCurr : List LidarPoint)
    (frameRate : ℚ) : Option ℚ × List LidarPoint × List LidarPoint :=
  let sc := List.insertionSort (fun a b : LidarPoint => a.x ≤ b.x) lidarPointsCurr
  let sp := List.insertionSort (fun a b : LidarPoint => a.x ≤ b.x) lidarPointsPrev
  (match medianXOf lidarPointsCurr, medianXOf lidarPointsPrev with
   | some mc, some mp => some ((1 / frameRate) * mc / (mp - mc))
   | _, _ => none,
   sp, sc)

/-- The `TTC` output parameter of `computeTTCLidar` alone. -/
def computeTTCLidar (lidarPointsPrev lidarPointsCurr : List LidarPoint)
    (frameRate : ℚ) : Option ℚ :=
  (computeTTCLidarFull lidarPointsPrev lidarPointsCurr frameRate).1

/-- The `boxID` of the first bounding box of a frame whose `roi` contains
the keypoint, if any (the `break`-terminated search loops of
`matchBoundingBoxes`). -/
def bboxIdOf (boxes : List BoundingBox) (pt : ℚ × ℚ) : Option Int :=
  (boxes.find? (fun b => rectContainsF b.roi pt)).map (fun b => b.boxID)

/-- The box id the current-frame search loop finds for one match
(`none` when no box of the frame encloses the keypoint, in which case the
code leaves `currId` unchanged). -/
def foundCurrId (currFrame : DataFrame) (m : DMatch) : Option Int :=
  bboxIdOf currFrame.boundingBoxes (currFrame.keypoints.getD m.trainIdx default).pt

/-- Previous-frame counterpart of `foundCurrId`. -/
def foundPrevId (prevFrame : DataFrame) (m : DMatch) : Option Int :=
  bboxIdOf prevFrame.boundingBoxes (prevFrame.keypoints.getD m.queryIdx default).pt

/-- The first phase of `matchBoundingBoxes`: one `(currId, prevId)` pair
is recorded per match.  The accumulators `cid`, `pid` model the C++
variables `currId`, `prevId`, which are initialized to `-1` once, before
the loop, and keep their previous (stale) value whenever no box encloses
the keypoint. -/
def recordPairsAux (prevFrame currFrame : DataFrame) (cid pid : Int) :
    List DMatch → List (Int × Int)
  | [] => []
  | m :: ms =>
    let c := (foundCurrId currFrame m).getD cid
    let p := (foundPrevId prevFrame m).getD pid
    (c, p) :: recordPairsAux prevFrame currFrame c p ms

/-- The contents of the `bboxIdMap` multimap after the first loop of
`matchBoundingBoxes`. -/
def recordPairs (dmatches : List DMatch) (prevFrame currFrame : DataFrame) :
    List (Int × Int) :=
  recordPairsAux prevFrame currFrame (-1) (-1) dmatches

/-- `prevMaxId` after the first loop: the maximum of `0` and every
recorded previous id. -/
def prevMaxOf (pairs : List (Int × Int)) : Int :=
  pairs.foldl (fun a pr => max a pr.2) 0

/-- The recorded previous ids paired with a given current id
(`bboxIdMap.equal_range(cid)`). -/
def votesFor (pairs : List (Int × Int)) (cid : Int) : List Int :=
  (pairs.filter (fun pr => pr.1 == cid)).map (fun pr => pr.2)

/-- Number of votes naming previous id `k` (the entry `countMaxId[k]`;
the code skips the sentinel `-1`, which can never equal a `k ≥ 0`). -/
def countVote (votes : List Int) (k : Nat) : Nat :=
  (votes.filter (fun v => v == (k : Int))).length

/-- The counting array `countMaxId` of size `prevMaxId + 1`. -/
def voteCounts (votes : List Int) (m : Nat) : List Nat :=
  (List.range (m + 1)).map (fun k => countVote votes k)

/-- Position and value of the first maximum of a list of counts
(`std::max_element` returns the first maximal element;
`std::distance` turns it into an index). -/
def firstMaxPair : List Nat → Nat × Nat
  | [] => (0, 0)
  | x :: xs =>
    if x < (firstMaxPair xs).2 then ((firstMaxPair xs).1 + 1, (firstMaxPair xs).2)
    else (0, x)

/-- The previous id chosen for one current id by the second loop of
`matchBoundingBoxes`. -/
def bestPrevFor (pairs : List (Int × Int)) (cid : Int) : Int :=
  ((firstMaxPair (voteCounts (votesFor pairs cid) (prevMaxOf pairs).toNat)).1 : Nat)

/-- `matchBoundingBoxes(matches, bbBestMatches, prevFrame, currFrame)`:
the final contents of the `bbBestMatches` map as an association list
keyed by previous id (`std::map::insert` keeps the first entry for a
key). -/
def matchBoundingBoxes (dmatches : List DMatch) (prevFrame currFrame : DataFrame) :
    List (Int × Int) :=
  let pairs := recordPairs dmatches prevFrame currFrame
  (currFrame.boundingBoxes.map (fun b => b.boxID)).foldl
    (fun acc cid =>
      let pid := bestPrevFor pairs cid
      if acc.any (fun pr => pr.1 == pid) then acc else acc ++ [(pid, cid)])
    []

/-- Exact absolute value on `ℚ` (kernel-reducible).  Used to build the
concrete norm instances of the witnesses: on axis-aligned points the L1
norm below coincides with the Euclidean `cv::norm`. -/
def ratAbs (q : ℚ) : ℚ := if q < 0 then -q else q

/-- Concrete norm used by the witnesses. -/
def normL1 : ℚ × ℚ → ℚ := fun p => ratAbs p.1 + ratAbs p.2

/-- Previous-frame keypoints of the C1 witness (all on the image x axis). -/
def kpPrevW : List KeyPoint := [⟨(0, 0)⟩, ⟨(100, 0)⟩, ⟨(100, 0)⟩, ⟨(300, 0)⟩]

/-- Current-frame keypoints of the C1 witness. -/
def kpCurrW : List KeyPoint := [⟨(0, 0)⟩, ⟨(85, 0)⟩, ⟨(105, 0)⟩, ⟨(285, 0)⟩]

/-- Matches of the C1 witness (keypoint `i` matched to keypoint `i`).
The surviving ratio list is `[1.05, 0.95, 1.0, 0.9]`: the pairs `(0,1)`
fail the `distCurr ≥ 100` filter, the pairs `(1,2)`, `(2,1)` and the
self-pairs fail the `distPrev > epsilon` filter. -/
def msW : List DMatch := [⟨0, 0, 0⟩, ⟨1, 1, 0⟩, ⟨2, 2, 0⟩, ⟨3, 3, 0⟩]

/-- Truncating an integer-valued rational gives back the integer. -/
theorem ratTrunc_intCast (n : Int) : ratTrunc (n : ℚ) = n := by
  unfold ratTrunc
  rw [Rat.intCast_num, Rat.intCast_den]
  exact Int.tdiv_one n

/-- C8 counterexample: integer truncation of the shrunk rectangle breaks
monotonicity.  For the rectangle `(0, 0, 4, 4)` and shrink factors
`s1 = 2/5 ≤ s2 = 1/2` (both in `[0, 1)`), the pixel `(2, 1)` is contained
in the rectangle shrunk by `s2` but not in the one shrunk by `s1`:
shrinking by `2/5` gives `(0, 0, 2, 2)` while shrinking by `1/2` gives
`(1, 1, 2, 2)`, whose right edge lies further to the right. -/
theorem shrink_monotone_cex :
    (0 : ℚ) ≤ 2/5 ∧ (2/5 : ℚ) ≤ 1/2 ∧ (1/2 : ℚ) < 1 ∧
    rectContains (shrinkRect (1/2) ⟨0, 0, 4, 4⟩) (2, 1) = true ∧
    rectContains (shrinkRect (2/5) ⟨0, 0, 4, 4⟩) (2, 1) = false := by
  with_unfolding_all decide

/-- C8 (amended): with shrink factor `0` the shrunk rectangle equals the
original rectangle, but containment is not monotonic in the shrink
factor: because each side of the shrunk rectangle is truncated to `int`
separately, the integer right/bottom edges need not move inward
monotonically, and a pixel enclosed at a larger shrink factor can be
outside the rectangle of a smaller one. -/
theorem shrink_monotone_amended :
    (∀ roi : CvRect, shrinkRect 0 roi = roi) ∧
    ¬ (∀ (roi : CvRect) (p : Int × Int) (s1 s2 : ℚ), 0 ≤ s1 → s1 ≤ s2 → s2 < 1 →
        rectContains (shrinkRect s2 roi) p = true →
        rectContains (shrinkRect s1 roi) p = true) := by
  constructor
  · intro roi
    obtain ⟨rx, ry, rw, rh⟩ := roi
    simp [shrinkRect, ratTrunc_intCast]
  · intro hmono
    have h2 : rectContains (shrinkRect (1/2) ⟨0, 0, 4, 4⟩) (2, 1) = true := by
      with_unfolding_all decide
    have h1 := hmono ⟨0, 0, 4, 4⟩ (2, 1) (2/5) (1/2)
      (by norm_num) (by norm_num) (by norm_num) h2
    have h1f : rectContains (shrinkRect (2/5) ⟨0, 0, 4, 4⟩) (2, 1) = false := by
      with_unfolding_all decide
    rw [h1] at h1f
    exact Bool.true_eq_false.mp h1f

/-- C7 counterexample: the empty-mean case of `clusterKptMatchesWithROI`
is not guarded and produces no distinct outcome.  For a region whose
rectangle encloses no correspondence (here the only current keypoint lies
at `(100, 100)`, outside the `10 × 10` box), the enclosed set is empty,
the code divides `0.0` by `0` (a silent `NaN` in the C++ doubles), and the
call returns the region unchanged through the normal path — exactly what
a successful call on an empty region looks like, with no separate
"no usable matches" signal. -/
theorem clusterKpt_empty_cex :
    [DMatch.mk 0 0 5].filter
      (enclosedByROI (CvRect.mk 0 0 10 10) [KeyPoint.mk (100, 100)]) = [] ∧
    clusterKptMatchesWithROI ⟨1, ⟨0, 0, 10, 10⟩, [], []⟩ [] [⟨(100, 100)⟩] [⟨0, 0, 5⟩]
      = ⟨1, ⟨0, 0, 10, 10⟩, [], []⟩ := by
  with_unfolding_all decide

/-- C7 (amended): the mean-over-zero-elements computation in
`clusterKptMatchesWithROI` is not guarded.  When the region starts with an
empty correspondence set and no input correspondence falls inside its
rectangle, the code computes `0.0 / 0` (a silent `NaN`) and returns the
region unchanged via the normal return path; the caller receives an
ordinary region with an empty correspondence set rather than a distinct
"no usable matches" outcome. -/
theorem clusterKpt_empty_amended (box : BoundingBox) (kptsPrev kptsCurr : List KeyPoint)
    (kptMatches : List DMatch)
    (h0 : box.kptMatches = [])
    (h1 : kptMatches.filter (enclosedByROI box.roi kptsCurr) = []) :
    clusterKptMatchesWithROI box kptsPrev kptsCurr kptMatches = box := by
  obtain ⟨bid, roi, lps, kms⟩ := box
  simp only at h0 h1
  subst h0
  simp [clusterKptMatchesWithROI, h1]

/-- C7 witness: the amended statement applied at a concrete degenerate
input. -/
theorem clusterKpt_empty_amended_app :
    clusterKptMatchesWithROI ⟨2, ⟨0, 0, 10, 10⟩, [], []⟩ [] [⟨(50, 50)⟩] [⟨0, 0, 1⟩]
      = ⟨2, ⟨0, 0, 10, 10⟩, [], []⟩ :=
  clusterKpt_empty_amended _ _ _ _ rfl (by with_unfolding_all decide)

/-- Previous-frame keypoints of the single-surviving-ratio scenario. -/
def kpPrevOne : List KeyPoint := [⟨(0, 0)⟩, ⟨(100, 0)⟩]

/-- Current-frame keypoints of the single-surviving-ratio scenario. -/
def kpCurrOne : List KeyPoint := [⟨(0, 0)⟩, ⟨(150, 0)⟩]

/-- Matches of the single-surviving-ratio scenario. -/
def msOne : List DMatch := [⟨0, 0, 0⟩, ⟨1, 1, 0⟩]

/-- C6 counterexample: with exactly one valid distance-ratio sample
(fewer than two), `computeTTCCamera` does not signal not-a-number but
returns the ordinary numeric value `-dT / (1 - 3/2) = 1/5`. -/
theorem ttc_nan_guard_cex :
    (distRatiosOf normL1 kpPrevOne kpCurrOne msOne).length = 1 ∧
    computeTTCCamera normL1 kpPrevOne kpCurrOne msOne 10 = some (1/5) := by
  with_unfolding_all decide

/-- C6 (amended): the camera estimator signals an undefined (not-a-number)
result exactly when zero distance ratios survive — a single surviving
ratio already yields an ordinary numeric value — and the lidar estimator
has no degeneracy guard at all: on empty point sets it performs an
out-of-bounds vector access (modelled as returning no value) instead of
signalling not-a-number. -/
theorem ttc_nan_guard_amended :
    (∀ (normF : ℚ × ℚ → ℚ) (kptsPrev kptsCurr : List KeyPoint)
        (kptMatches : List DMatch) (frameRate : ℚ),
      computeTTCCamera normF kptsPrev kptsCurr kptMatches frameRate = none ↔
        distRatiosOf normF kptsPrev kptsCurr kptMatches = []) ∧
    (∀ frameRate : ℚ, computeTTCLidar [] [] frameRate = none) := by
  constructor
  · intro normF kptsPrev kptsCurr kptMatches frameRate
    unfold computeTTCCamera
    by_cases hl : (distRatiosOf normF kptsPrev kptsCurr kptMatches).length = 0
    · simp [hl, List.length_eq_zero.mp hl]
    · simp only [hl, if_false]
      simp [List.length_eq_zero] at hl
      simp [hl]
  · intro frameRate
    rfl

instance : IsTotal LidarPoint (fun a b : LidarPoint => a.x ≤ b.x) :=
  ⟨fun a b => le_total a.x b.x⟩

instance : IsTrans LidarPoint (fun a b : LidarPoint => a.x ≤ b.x) :=
  ⟨fun _ _ _ hab hbc => le_trans hab hbc⟩

/-- C9 counterexample: `computeTTCLidar` reorders the caller's data.
After a call on the current-frame point list `[x=2, x=1]`, the caller's
vector holds `[x=1, x=2]` — it is not left unchanged. -/
theorem ttcLidar_mutation_cex :
    (computeTTCLidarFull [⟨1, 0, 0, 0⟩] [⟨2, 0, 0, 0⟩, ⟨1, 0, 0, 0⟩] 10).2.2
      ≠ [⟨2, 0, 0, 0⟩, ⟨1, 0, 0, 0⟩] := by
  with_unfolding_all decide

/-- C9 (amended): the camera estimator receives its match list by value
and never writes to the keypoint vectors, but the lidar estimator sorts
both point vectors in place: after a call the caller's collections are
permutations of their original contents ordered by ascending forward
distance `x` — the element multiset is preserved, the element order in
general is not. -/
theorem ttcLidar_mutation_amended
    (lidarPointsPrev lidarPointsCurr : List LidarPoint) (frameRate : ℚ) :
    ((computeTTCLidarFull lidarPointsPrev lidarPointsCurr frameRate).2.1).Perm
        lidarPointsPrev ∧
    List.Sorted (fun a b : LidarPoint => a.x ≤ b.x)
        ((computeTTCLidarFull lidarPointsPrev lidarPointsCurr frameRate).2.1) ∧
    ((computeTTCLidarFull lidarPointsPrev lidarPointsCurr frameRate).2.2).Perm
        lidarPointsCurr ∧
    List.Sorted (fun a b : LidarPoint => a.x ≤ b.x)
        ((computeTTCLidarFull lidarPointsPrev lidarPointsCurr frameRate).2.2) := by
  refine ⟨List.perm_insertionSort _ _, List.sorted_insertionSort _ _,
    List.perm_insertionSort _ _, List.sorted_insertionSort _ _⟩

/-- C1: whenever at least one distance ratio survives the
`distPrev > epsilon ∧ distCurr ≥ 100.0` filter, `computeTTCCamera`
returns `TTC = -dT / (1 - medianRatio)` with `dT = 1/frameRate` and
`medianRatio` the statistical median of the surviving ratio list (even
count: average of the two middle values of the sorted list; odd count:
the single middle value); in particular, if the surviving ratios sort to
`[0.9, 0.95, 1.0, 1.05]` and `frameRate = 10`, the result is `-4.0`. -/
theorem computeTTCCamera_median_spec (normF : ℚ × ℚ → ℚ)
    (kptsPrev kptsCurr : List KeyPoint) (kptMatches : List DMatch) (frameRate : ℚ)
    (h : distRatiosOf normF kptsPrev kptsCurr kptMatches ≠ []) :
    computeTTCCamera normF kptsPrev kptsCurr kptMatches frameRate =
      some (-(1 / frameRate) /
        (1 - medianOf (distRatiosOf normF kptsPrev kptsCurr kptMatches))) ∧
    (List.insertionSort (fun a b : ℚ => a ≤ b)
        (distRatiosOf normF kptsPrev kptsCurr kptMatches)
          = [9/10, 19/20, 1, 21/20] →
      frameRate = 10 →
      computeTTCCamera normF kptsPrev kptsCurr kptMatches frameRate = some (-4)) := by
  have hlen : (distRatiosOf normF kptsPrev kptsCurr kptMatches).length ≠ 0 := by
    simpa [List.length_eq_zero] using h
  have hmain : computeTTCCamera normF kptsPrev kptsCurr kptMatches frameRate =
      some (-(1 / frameRate) /
        (1 - medianOf (distRatiosOf normF kptsPrev kptsCurr kptMatches))) := by
    unfold computeTTCCamera
    simp [hlen]
  refine ⟨hmain, fun hs hf => ?_⟩
  have hlen4 : (distRatiosOf normF kptsPrev kptsCurr kptMatches).length = 4 := by
    have hcongr := congrArg List.length hs
    simpa [List.length_insertionSort] using hcongr
  have hmed : medianOf (distRatiosOf normF kptsPrev kptsCurr kptMatches) = 39/40 := by
    unfold medianOf
    rw [hs, hlen4]
    norm_num
  rw [hmain, hmed, hf]
  norm_num

/-- C1 witness: a concrete frame pair (collinear keypoints, so the L1 norm
equals the Euclidean one) whose surviving ratio list sorts to
`[0.9, 0.95, 1.0, 1.05]`; at `frameRate = 10` the returned TTC is `-4`. -/
theorem computeTTCCamera_median_spec_app :
    computeTTCCamera normL1 kpPrevW kpCurrW msW 10 = some (-4) :=
  (computeTTCCamera_median_spec normL1 kpPrevW kpCurrW msW 10
    (by with_unfolding_all decide)).2 (by with_unfolding_all decide) rfl

/-- C5: for a region whose correspondence set is empty on entry,
`clusterKptMatchesWithROI` leaves exactly those input correspondences
whose current-frame keypoint lies inside the region's unshrunk rectangle
and whose match distance is at least `0.7` times the mean distance of all
enclosed correspondences. -/
theorem clusterKpt_filter_spec (box : BoundingBox) (kptsPrev kptsCurr : List KeyPoint)
    (kptMatches : List DMatch) (h : box.kptMatches = []) :
    (clusterKptMatchesWithROI box kptsPrev kptsCurr kptMatches).kptMatches =
      kptMatches.filter (fun m =>
        enclosedByROI box.roi kptsCurr m &&
        decide (7/10 * meanEnclosedDist box.roi kptsCurr kptMatches ≤ m.distance)) := by
  obtain ⟨bid, roi, lps, kms⟩ := box
  simp only at h
  subst h
  simp only [clusterKptMatchesWithROI, meanEnclosedDist, List.nil_append]
  rw [List.filter_filter]
  refine List.filter_congr fun m _ => ?_
  by_cases hin : enclosedByROI roi kptsCurr m
  · simp only [hin, Bool.and_true, Bool.true_and]
    rcases le_or_lt (7/10 * (((kptMatches.filter (enclosedByROI roi kptsCurr)).map
        (fun m => m.distance)).sum / (((kptMatches.filter
          (enclosedByROI roi kptsCurr)).length : ℚ)))) m.distance with hle | hlt
    · simp [hle, not_lt.mpr hle]
    · simp [hlt, not_le.mpr hlt]
  · simp [hin]

/-- Region of the C5 witness. -/
def boxW : BoundingBox := ⟨3, ⟨0, 0, 200, 200⟩, [], []⟩

/-- Current keypoints of the C5 witness: two inside the region, one far
outside. -/
def kcW : List KeyPoint := [⟨(50, 50)⟩, ⟨(60, 60)⟩, ⟨(500, 500)⟩]

/-- Matches of the C5 witness: distances `10`, `1`, `5`; the two enclosed
ones have mean `5.5`, so the threshold is `3.85` and only the first
survives. -/
def msKW : List DMatch := [⟨0, 0, 10⟩, ⟨1, 1, 1⟩, ⟨2, 2, 5⟩]

/-- C5 witness: the filter keeps exactly the enclosed match with distance
`10 ≥ 0.7 * 5.5` and drops the enclosed match with distance `1`. -/
theorem clusterKpt_filter_spec_app :
    (clusterKptMatchesWithROI boxW [] kcW msKW).kptMatches = [⟨0, 0, 10⟩] :=
  (clusterKpt_filter_spec boxW [] kcW msKW rfl).trans (by with_unfolding_all decide)

/-- Sorting Lidar points by `x` and then reading off the `x` coordinates
gives the sorted list of `x` coordinates. -/
theorem mapX_insertionSort (l : List LidarPoint) :
    (List.insertionSort (fun a b : LidarPoint => a.x ≤ b.x) l).map (fun p => p.x)
      = List.insertionSort (fun a b : ℚ => a ≤ b) (l.map (fun p => p.x)) := by
  have hperm : ((List.insertionSort (fun a b : LidarPoint => a.x ≤ b.x) l).map
      (fun p => p.x)).Perm
        (List.insertionSort (fun a b : ℚ => a ≤ b) (l.map (fun p => p.x))) :=
    ((List.perm_insertionSort _ l).map (fun p => p.x)).trans
      (List.perm_insertionSort _ _).symm
  have hs1 : List.Sorted (fun a b : ℚ => a ≤ b)
      ((List.insertionSort (fun a b : LidarPoint => a.x ≤ b.x) l).map (fun p => p.x)) :=
    @List.Pairwise.map ℚ LidarPoint (fun a b : LidarPoint => a.x ≤ b.x)
      (List.insertionSort (fun a b : LidarPoint => a.x ≤ b.x) l)
      (fun a b : ℚ => a ≤ b) (fun p => p.x) (fun _ _ hab => hab)
      (List.sorted_insertionSort (fun a b : LidarPoint => a.x ≤ b.x) l)
  have hs2 : List.Sorted (fun a b : ℚ => a ≤ b)
      (List.insertionSort (fun a b : ℚ => a ≤ b) (l.map (fun p => p.x))) :=
    List.sorted_insertionSort _ _
  exact List.eq_of_perm_of_sorted hperm hs1 hs2

/-- On a non-empty point list, the sorted-middle-point reading of
`computeTTCLidar` produces exactly the statistical median of the `x`
values. -/
theorem medianXOf_eq_medianOf (l : List LidarPoint) (h : l ≠ []) :
    medianXOf l = some (medianOf (l.map (fun p => p.x))) := by
  have hpos : 0 < l.length := List.length_pos.mpr h
  simp only [medianXOf, medianOf]
  rw [← mapX_insertionSort l, List.length_insertionSort, List.length_map]
  by_cases hpar : l.length % 2 = 0
  · rw [if_pos hpar, if_pos hpar]
    have hb1 : l.length / 2 - 1 <
        (List.insertionSort (fun a b : LidarPoint => a.x ≤ b.x) l).length := by
      rw [List.length_insertionSort]; omega
    have hb2 : l.length / 2 <
        (List.insertionSort (fun a b : LidarPoint => a.x ≤ b.x) l).length := by
      rw [List.length_insertionSort]; omega
    rw [List.getElem?_eq_getElem hb1, List.getElem?_eq_getElem hb2,
        List.getD_eq_getElem?_getD, List.getD_eq_getElem?_getD,
        List.getElem?_map, List.getElem?_map,
        List.getElem?_eq_getElem hb1, List.getElem?_eq_getElem hb2]
    simp
  · rw [if_neg hpar, if_neg hpar]
    have hb2 : l.length / 2 <
        (List.insertionSort (fun a b : LidarPoint => a.x ≤ b.x) l).length := by
      rw [List.length_insertionSort]; omega
    rw [List.getElem?_eq_getElem hb2, List.getD_eq_getElem?_getD,
        List.getElem?_map, List.getElem?_eq_getElem hb2]
    simp

/-- C2: on non-empty point sets `computeTTCLidar` returns
`TTC = dT * medianCurrentX / (medianPreviousX - medianCurrentX)` with
`dT = 1/frameRate`, the medians using the same even/odd averaging rule as
the camera estimator; in particular previous median `8.0`, current median
`7.5` and `frameRate = 10` give `1.5`. -/
theorem computeTTCLidar_median_spec
    (lidarPointsPrev lidarPointsCurr : List LidarPoint) (frameRate : ℚ)
    (hp : lidarPointsPrev ≠ []) (hc : lidarPointsCurr ≠ []) :
    computeTTCLidar lidarPointsPrev lidarPointsCurr frameRate =
      some ((1 / frameRate) * medianOf (lidarPointsCurr.map (fun p => p.x)) /
        (medianOf (lidarPointsPrev.map (fun p => p.x)) -
          medianOf (lidarPointsCurr.map (fun p => p.x)))) ∧
    (medianOf (lidarPointsPrev.map (fun p => p.x)) = 8 →
      medianOf (lidarPointsCurr.map (fun p => p.x)) = 15/2 →
      frameRate = 10 →
      computeTTCLidar lidarPointsPrev lidarPointsCurr frameRate = some (3/2)) := by
  have hmain : computeTTCLidar lidarPointsPrev lidarPointsCurr frameRate =
      some ((1 / frameRate) * medianOf (lidarPointsCurr.map (fun p => p.x)) /
        (medianOf (lidarPointsPrev.map (fun p => p.x)) -
          medianOf (lidarPointsCurr.map (fun p => p.x)))) := by
    unfold computeTTCLidar computeTTCLidarFull
    rw [medianXOf_eq_medianOf _ hc, medianXOf_eq_medianOf _ hp]
  refine ⟨hmain, fun h8 h75 hf => ?_⟩
  rw [hmain, h8, h75, hf]
  norm_num

/-- C2 witness: singleton point sets with `x = 8.0` and `x = 7.5` at
`frameRate = 10` give `TTC = 1.5`. -/
theorem computeTTCLidar_median_spec_app :
    computeTTCLidar [⟨8, 0, 0, 0⟩] [⟨15/2, 0, 0, 0⟩] 10 = some (3/2) :=
  (computeTTCLidar_median_spec [⟨8, 0, 0, 0⟩] [⟨15/2, 0, 0, 0⟩] 10
    (List.cons_ne_nil _ _) (List.cons_ne_nil _ _)).2
    (by with_unfolding_all decide) (by with_unfolding_all decide) rfl

/-- The first-maximum index is a valid position. -/
theorem firstMaxPair_fst_lt (l : List Nat) (h : l ≠ []) :
    (firstMaxPair l).1 < l.length := by
  induction l with
  | nil => exact absurd rfl h
  | cons a l ih =>
    simp only [firstMaxPair]
    by_cases hc : a < (firstMaxPair l).2
    · rw [if_pos hc]
      have hl : l ≠ [] := by
        rintro rfl
        simp [firstMaxPair] at hc
      simpa using Nat.succ_lt_succ (ih hl)
    · rw [if_neg hc]
      simp

/-- The value of the first maximum is the list entry at its index. -/
theorem firstMaxPair_getD (l : List Nat) (h : l ≠ []) :
    l.getD (firstMaxPair l).1 0 = (firstMaxPair l).2 := by
  induction l with
  | nil => exact absurd rfl h
  | cons a l ih =>
    simp only [firstMaxPair]
    by_cases hc : a < (firstMaxPair l).2
    · rw [if_pos hc]
      have hl : l ≠ [] := by
        rintro rfl
        simp [firstMaxPair] at hc
      simpa [List.getD_cons_succ] using ih hl
    · rw [if_neg hc]
      simp

/-- Every entry is at most the first-maximum value. -/
theorem firstMaxPair_le (l : List Nat) :
    ∀ k, k < l.length → l.getD k 0 ≤ (firstMaxPair l).2 := by
  induction l with
  | nil => intro k hk; simp at hk
  | cons a l ih =>
    intro k hk
    simp only [firstMaxPair]
    by_cases hc : a < (firstMaxPair l).2
    · rw [if_pos hc]
      cases k with
      | zero => simpa using Nat.le_of_lt hc
      | succ k =>
        simpa [List.getD_cons_succ] using ih k (by simpa using hk)
    · rw [if_neg hc]
      cases k with
      | zero => simp
      | succ k =>
        have h1 : l.getD k 0 ≤ (firstMaxPair l).2 := ih k (by simpa using hk)
        have h2 : (firstMaxPair l).2 ≤ a := Nat.not_lt.mp hc
        simpa [List.getD_cons_succ] using le_trans h1 h2

/-- Every entry strictly before the first-maximum index is strictly
smaller than the first-maximum value (`std::max_element` keeps the first
maximal element). -/
theorem firstMaxPair_first (l : List Nat) :
    ∀ k, k < (firstMaxPair l).1 → l.getD k 0 < (firstMaxPair l).2 := by
  induction l with
  | nil => intro k hk; simp [firstMaxPair] at hk
  | cons a l ih =>
    intro k hk
    simp only [firstMaxPair] at hk ⊢
    by_cases hc : a < (firstMaxPair l).2
    · rw [if_pos hc] at hk ⊢
      cases k with
      | zero => simpa using hc
      | succ k =>
        have hk2 : k < (firstMaxPair l).1 := by simpa using hk
        simpa [List.getD_cons_succ] using ih k hk2
    · rw [if_neg hc] at hk
      simp at hk

/-- Length of the counting array. -/
theorem voteCounts_length (votes : List Int) (m : Nat) :
    (voteCounts votes m).length = m + 1 := by
  simp [voteCounts]

/-- Entry `k ≤ m` of the counting array is the vote count for `k`. -/
theorem voteCounts_getD (votes : List Int) (m k : Nat) (h : k ≤ m) :
    (voteCounts votes m).getD k 0 = countVote votes k := by
  unfold voteCounts
  rw [List.getD_eq_getElem?_getD, List.getElem?_map,
    List.getElem?_range (by omega : k < m + 1)]
  simp

/-- The fold computing `prevMaxId` only grows its accumulator. -/
theorem foldlMax_le (pairs : List (Int × Int)) :
    ∀ a : Int, a ≤ pairs.foldl (fun x pr => max x pr.2) a := by
  induction pairs with
  | nil => intro a; exact le_refl a
  | cons q rest ih =>
    intro a
    exact le_trans (le_max_left a q.2) (ih (max a q.2))

/-- Every recorded previous id is bounded by the fold. -/
theorem mem_le_foldlMax (pairs : List (Int × Int)) :
    ∀ (a : Int), ∀ pr ∈ pairs, pr.2 ≤ pairs.foldl (fun x prr => max x prr.2) a := by
  induction pairs with
  | nil => intro a pr hpr; simp at hpr
  | cons q rest ih =>
    intro a pr hpr
    rcases List.mem_cons.mp hpr with rfl | hmem
    · exact le_trans (le_max_right a pr.2) (foldlMax_le rest (max a pr.2))
    · exact ih (max a q.2) pr hmem

/-- Every vote for a current id is at most `prevMaxId`. -/
theorem votesFor_le_prevMax (pairs : List (Int × Int)) (cid : Int) :
    ∀ v ∈ votesFor pairs cid, v ≤ prevMaxOf pairs := by
  intro v hv
  unfold votesFor at hv
  obtain ⟨pr, hpr, rfl⟩ := List.mem_map.mp hv
  exact mem_le_foldlMax pairs 0 pr (List.mem_filter.mp hpr).1

/-- `prevMaxId` starts at `0` and never decreases. -/
theorem prevMaxOf_nonneg (pairs : List (Int × Int)) : 0 ≤ prevMaxOf pairs :=
  foldlMax_le pairs 0

/-- A value named by no vote has count zero. -/
theorem countVote_eq_zero (votes : List Int) (q : Nat)
    (h : ∀ v ∈ votes, v ≠ (q : Int)) : countVote votes q = 0 := by
  unfold countVote
  rw [List.length_eq_zero, List.filter_eq_nil_iff]
  intro v hv
  simpa using h v hv

/-- C3: in the second phase of `matchBoundingBoxes`, the previous id
chosen for a current id carries at least as many votes as any other id
(first conjunct), any strictly smaller previous id carries strictly fewer
votes — ties are broken in favour of the lowest previous id (second
conjunct) — a current id whose recorded pairs all name the
no-enclosing-region sentinel `-1` (in particular one with no recorded
pairs) is matched to previous id `0` (third conjunct), and three votes
for previous id `2` against one vote for previous id `3` at current id
`5` select previous id `2` (fourth conjunct). -/
theorem matchBoundingBoxes_vote_spec (pairs : List (Int × Int)) (cid : Int) :
    (∀ q : Nat, countVote (votesFor pairs cid) q ≤
        countVote (votesFor pairs cid) (bestPrevFor pairs cid).toNat) ∧
    (∀ q : Nat, q < (bestPrevFor pairs cid).toNat →
        countVote (votesFor pairs cid) q <
          countVote (votesFor pairs cid) (bestPrevFor pairs cid).toNat) ∧
    ((∀ v ∈ votesFor pairs cid, v = -1) → bestPrevFor pairs cid = 0) ∧
    bestPrevFor [(5, 2), (5, 2), (5, 2), (5, 3)] 5 = 2 := by
  have hlen : (voteCounts (votesFor pairs cid) (prevMaxOf pairs).toNat).length =
      (prevMaxOf pairs).toNat + 1 := voteCounts_length _ _
  have hne : voteCounts (votesFor pairs cid) (prevMaxOf pairs).toNat ≠ [] := by
    intro hnil
    rw [hnil] at hlen
    simp at hlen
  have hfst : (firstMaxPair (voteCounts (votesFor pairs cid) (prevMaxOf pairs).toNat)).1 <
      (prevMaxOf pairs).toNat + 1 := by
    have hv := firstMaxPair_fst_lt _ hne
    rw [hlen] at hv
    exact hv
  have htoNat : (bestPrevFor pairs cid).toNat =
      (firstMaxPair (voteCounts (votesFor pairs cid) (prevMaxOf pairs).toNat)).1 := by
    unfold bestPrevFor
    exact Int.toNat_ofNat _
  have hcntpid : countVote (votesFor pairs cid)
      (firstMaxPair (voteCounts (votesFor pairs cid) (prevMaxOf pairs).toNat)).1 =
      (firstMaxPair (voteCounts (votesFor pairs cid) (prevMaxOf pairs).toNat)).2 := by
    rw [← voteCounts_getD (votesFor pairs cid) (prevMaxOf pairs).toNat _ (by omega)]
    exact firstMaxPair_getD _ hne
  have hvle : ∀ v ∈ votesFor pairs cid, v ≤ ((prevMaxOf pairs).toNat : Int) := by
    intro v hv2
    have h1 := votesFor_le_prevMax pairs cid v hv2
    have h2 := prevMaxOf_nonneg pairs
    omega
  refine ⟨?_, ?_, ?_, by with_unfolding_all decide⟩
  · intro q
    rw [htoNat, hcntpid]
    by_cases hq : q ≤ (prevMaxOf pairs).toNat
    · rw [← voteCounts_getD (votesFor pairs cid) (prevMaxOf pairs).toNat q hq]
      exact firstMaxPair_le _ q (by omega)
    · have h0 : countVote (votesFor pairs cid) q = 0 := by
        refine countVote_eq_zero _ q fun v hv2 heq => ?_
        have := hvle v hv2
        omega
      rw [h0]
      exact Nat.zero_le _
  · intro q hq
    rw [htoNat] at hq
    rw [htoNat, hcntpid]
    rw [← voteCounts_getD (votesFor pairs cid) (prevMaxOf pairs).toNat q (by omega)]
    exact firstMaxPair_first _ q hq
  · intro hall
    have hc0 : ∀ k : Nat, countVote (votesFor pairs cid) k = 0 := by
      intro k
      refine countVote_eq_zero _ k fun v hv2 heq => ?_
      rw [hall v hv2] at heq
      omega
    unfold bestPrevFor
    by_contra hne0
    have hpos : 0 <
        (firstMaxPair (voteCounts (votesFor pairs cid) (prevMaxOf pairs).toNat)).1 := by
      rcases Nat.eq_zero_or_pos
        (firstMaxPair (voteCounts (votesFor pairs cid) (prevMaxOf pairs).toNat)).1 with
        h0 | h0
      · rw [h0] at hne0
        simp at hne0
      · exact h0
    have hlt := firstMaxPair_first _ 0 hpos
    rw [voteCounts_getD (votesFor pairs cid) (prevMaxOf pairs).toNat 0 (Nat.zero_le _),
      hc0 0] at hlt
    rw [← hcntpid, hc0] at hlt
    exact Nat.lt_irrefl 0 hlt

/-- C3 witness: at the concrete vote multiset of the scenario, previous
id `0` (strictly below the selected id `2`) carries strictly fewer votes
than the selected id. -/
theorem matchBoundingBoxes_vote_spec_app :
    countVote (votesFor [(5, 2), (5, 2), (5, 2), (5, 3)] 5) 0 <
      countVote (votesFor [(5, 2), (5, 2), (5, 2), (5, 3)] 5)
        (bestPrevFor [(5, 2), (5, 2), (5, 2), (5, 3)] 5).toNat :=
  (matchBoundingBoxes_vote_spec [(5, 2), (5, 2), (5, 2), (5, 3)] 5).2.1 0
    (by with_unfolding_all decide)


/-- Characterization of `recordPairsAux`: the pair recorded at position
`i` consists, per coordinate, of the most recent box id found among the
matches up to and including `i`, or the initial accumulator when none of
them found one. -/
theorem recordPairsAux_getElem (prevFrame currFrame : DataFrame) :
    ∀ (ms : List DMatch) (cid pid : Int) (i : Nat), i < ms.length →
      (recordPairsAux prevFrame currFrame cid pid ms)[i]? = some
        ((((ms.take (i+1)).reverse).findSome? (foundCurrId currFrame)).getD cid,
         (((ms.take (i+1)).reverse).findSome? (foundPrevId prevFrame)).getD pid) := by
  intro ms
  induction ms with
  | nil => intro cid pid i hi; simp at hi
  | cons m rest ih =>
    intro cid pid i hi
    cases i with
    | zero =>
      simp only [recordPairsAux, List.getElem?_cons_zero, List.take_succ_cons,
        List.take_zero, List.reverse_cons, List.reverse_nil, List.nil_append,
        List.findSome?_cons, List.findSome?_nil]
      cases hc : foundCurrId currFrame m <;> cases hp : foundPrevId prevFrame m <;>
        simp [hc, hp]
    | succ i =>
      have hi2 : i < rest.length := by simpa using hi
      simp only [recordPairsAux, List.getElem?_cons_succ]
      rw [ih _ _ i hi2]
      simp only [List.take_succ_cons, List.reverse_cons, List.findSome?_append]
      cases hA1 : ((rest.take (i+1)).reverse).findSome? (foundCurrId currFrame) <;>
        cases hA2 : ((rest.take (i+1)).reverse).findSome? (foundPrevId prevFrame) <;>
        cases hc : foundCurrId currFrame m <;> cases hp : foundPrevId prevFrame m <;>
        simp [hA1, hA2, hc, hp, List.findSome?_cons, Option.or]

/-- C10: in the first phase of `matchBoundingBoxes` the region-id
variables are initialized to the sentinel `-1` once, before the loop, and
are never reset between correspondences; consequently the pair recorded
for correspondence `i` holds, per coordinate, the box id found for the
most recent correspondence up to and including `i` whose keypoint was
enclosed by some region, and `-1` exactly when no correspondence up to
`i` found an enclosing region. -/
theorem matchBoundingBoxes_stale_spec (prevFrame currFrame : DataFrame)
    (dmatches : List DMatch) (i : Nat) (h : i < dmatches.length) :
    (recordPairs dmatches prevFrame currFrame)[i]? = some
      ((((dmatches.take (i+1)).reverse).findSome? (foundCurrId currFrame)).getD (-1),
       (((dmatches.take (i+1)).reverse).findSome? (foundPrevId prevFrame)).getD (-1)) :=
  recordPairsAux_getElem prevFrame currFrame dmatches (-1) (-1) i h

/-- Previous frame of the C10 witness: one box with id `7`; keypoint `0`
is inside it, keypoint `1` is far outside. -/
def prevFrameS : DataFrame :=
  ⟨[⟨(5, 5)⟩, ⟨(50, 50)⟩], [⟨7, ⟨0, 0, 10, 10⟩, [], []⟩]⟩

/-- Current frame of the C10 witness: one box with id `9`; keypoint `0`
is inside it, keypoint `1` is far outside. -/
def currFrameS : DataFrame :=
  ⟨[⟨(5, 5)⟩, ⟨(50, 50)⟩], [⟨9, ⟨0, 0, 10, 10⟩, [], []⟩]⟩

/-- Matches of the C10 witness: match `0` hits the boxes, match `1` hits
no box at all. -/
def msS : List DMatch := [⟨0, 0, 0⟩, ⟨1, 1, 0⟩]

/-- C10 witness: although the keypoints of match `1` lie inside no
region, its recorded pair is `(9, 7)` — the stale ids found for match
`0` — not the sentinel `(-1, -1)`. -/
theorem matchBoundingBoxes_stale_spec_app :
    (recordPairs msS prevFrameS currFrameS)[1]? = some (9, 7) :=
  (matchBoundingBoxes_stale_spec prevFrameS currFrameS msS 1 (by decide)).trans
    (by with_unfolding_all decide)

/-- `appendAt` preserves the number of boxes. -/
theorem appendAt_length (bs : List BoundingBox) (j : Nat) (p : LidarPoint) :
    (appendAt bs j p).length = bs.length := by
  induction bs generalizing j with
  | nil => rfl
  | cons b bs ih =>
    cases j with
    | zero => rfl
    | succ j => simpa [appendAt] using ih j

/-- `appendAt` does not touch any rectangle. -/
theorem appendAt_roi (bs : List BoundingBox) (j : Nat) (p : LidarPoint) (k : Nat) :
    ((appendAt bs j p).getD k default).roi = (bs.getD k default).roi := by
  induction bs generalizing j k with
  | nil => rfl
  | cons b bs ih =>
    cases j with
    | zero =>
      cases k with
      | zero => rfl
      | succ k => rfl
    | succ j =>
      cases k with
      | zero => rfl
      | succ k => simpa [appendAt, List.getD_cons_succ] using ih j k

/-- The targeted box receives exactly the appended point. -/
theorem appendAt_getD_eq (bs : List BoundingBox) (j : Nat) (p : LidarPoint)
    (h : j < bs.length) :
    ((appendAt bs j p).getD j default).lidarPoints =
      (bs.getD j default).lidarPoints ++ [p] := by
  induction bs generalizing j with
  | nil => simp at h
  | cons b bs ih =>
    cases j with
    | zero => rfl
    | succ j => simpa [appendAt, List.getD_cons_succ] using ih j (by simpa using h)

/-- Every other box is left unchanged by `appendAt`. -/
theorem appendAt_getD_ne (bs : List BoundingBox) (j : Nat) (p : LidarPoint) (k : Nat)
    (h : k ≠ j) : (appendAt bs j p).getD k default = bs.getD k default := by
  induction bs generalizing j k with
  | nil => rfl
  | cons b bs ih =>
    cases j with
    | zero =>
      cases k with
      | zero => exact absurd rfl h
      | succ k => rfl
    | succ j =>
      cases k with
      | zero => rfl
      | succ k =>
        simpa [appendAt, List.getD_cons_succ] using ih j k fun he => h (by rw [he])

/-- The set of enclosing boxes only depends on the rectangles, which
`appendAt` preserves. -/
theorem enclosingIdxs_appendAt (bs : List BoundingBox) (j : Nat) (p : LidarPoint)
    (shrinkFactor : ℚ) (pix : Int × Int) :
    enclosingIdxs (appendAt bs j p) shrinkFactor pix = enclosingIdxs bs shrinkFactor pix := by
  unfold enclosingIdxs
  rw [appendAt_length]
  exact List.filter_congr fun a _ => by rw [appendAt_roi]

/-- One clustering step preserves the number of boxes. -/
theorem clusterStep_length (shrinkFactor : ℚ) (pMat rMat rtMat : Nat → Nat → ℚ)
    (boxes : List BoundingBox) (p : LidarPoint) :
    (clusterStep shrinkFactor pMat rMat rtMat boxes p).length = boxes.length := by
  unfold clusterStep
  rcases hE : enclosingIdxs boxes shrinkFactor (projectPoint pMat rMat rtMat p) with
    _ | ⟨j, _ | ⟨j2, rest⟩⟩
  · rfl
  · exact appendAt_length boxes j p
  · rfl

/-- One clustering step changes no rectangle, hence no enclosing set. -/
theorem enclosingIdxs_clusterStep (shrinkFactor : ℚ) (pMat rMat rtMat : Nat → Nat → ℚ)
    (boxes : List BoundingBox) (p : LidarPoint) (pix : Int × Int) :
    enclosingIdxs (clusterStep shrinkFactor pMat rMat rtMat boxes p) shrinkFactor pix =
      enclosingIdxs boxes shrinkFactor pix := by
  unfold clusterStep
  rcases hE : enclosingIdxs boxes shrinkFactor (projectPoint pMat rMat rtMat p) with
    _ | ⟨j, _ | ⟨j2, rest⟩⟩
  · rfl
  · exact enclosingIdxs_appendAt boxes j p shrinkFactor pix
  · rfl

/-- Unrolling the point loop of `clusterLidarWithROI`: box `i` ends with
its original points followed by exactly those input points whose
enclosing-box list is the singleton `[i]`. -/
theorem clusterFold_getD (shrinkFactor : ℚ) (pMat rMat rtMat : Nat → Nat → ℚ) :
    ∀ (pts : List LidarPoint) (boxes : List BoundingBox) (i : Nat), i < boxes.length →
      ((pts.foldl (clusterStep shrinkFactor pMat rMat rtMat) boxes).getD i
          default).lidarPoints
        = (boxes.getD i default).lidarPoints ++
          pts.filter (fun p =>
            decide (enclosingIdxs boxes shrinkFactor (projectPoint pMat rMat rtMat p)
              = [i])) := by
  intro pts
  induction pts with
  | nil =>
    intro boxes i hi
    simp
  | cons p ps ih =>
    intro boxes i hi
    simp only [List.foldl_cons, List.filter_cons]
    rcases hE : enclosingIdxs boxes shrinkFactor (projectPoint pMat rMat rtMat p) with
      _ | ⟨j, _ | ⟨j2, rest⟩⟩
    · have hstep : clusterStep shrinkFactor pMat rMat rtMat boxes p = boxes := by
        unfold clusterStep
        rw [hE]
      rw [hstep, ih boxes i hi]
      simp
    · have hstep : clusterStep shrinkFactor pMat rMat rtMat boxes p = appendAt boxes j p := by
        unfold clusterStep
        rw [hE]
      have hj : j < boxes.length := by
        have hmem : j ∈ enclosingIdxs boxes shrinkFactor (projectPoint pMat rMat rtMat p) := by
          rw [hE]
          exact List.mem_singleton.mpr rfl
        unfold enclosingIdxs at hmem
        exact List.mem_range.mp (List.mem_of_mem_filter hmem)
      have hih := ih (appendAt boxes j p) i (by rw [appendAt_length]; exact hi)
      have hpred : ps.filter (fun q =>
          decide (enclosingIdxs (appendAt boxes j p) shrinkFactor
            (projectPoint pMat rMat rtMat q) = [i]))
          = ps.filter (fun q =>
            decide (enclosingIdxs boxes shrinkFactor (projectPoint pMat rMat rtMat q)
              = [i])) :=
        List.filter_congr fun q _ => by rw [enclosingIdxs_appendAt]
      rw [hstep, hih, hpred]
      by_cases hij : i = j
      · subst hij
        rw [appendAt_getD_eq boxes i p hj]
        simp
      · rw [appendAt_getD_ne boxes j p i hij]
        simp [Ne.symm hij]
    · have hstep : clusterStep shrinkFactor pMat rMat rtMat boxes p = boxes := by
        unfold clusterStep
        rw [hE]
      rw [hstep, ih boxes i hi]
      simp

/-- C4: after `clusterLidarWithROI`, box `i` holds its original points
followed by exactly those Lidar points whose projected pixel is contained
in the shrunk rectangle of box `i` and of no other box; and the
singleton condition `enclosingIdxs = [i]` states precisely that exactly
one region encloses the pixel and that it is region `i`, so a point whose
pixel is enclosed by zero regions or by two or more is appended to no
region. -/
theorem clusterLidarWithROI_unique_spec (boxes : List BoundingBox)
    (lidarPoints : List LidarPoint) (shrinkFactor : ℚ)
    (pMat rMat rtMat : Nat → Nat → ℚ) (i : Nat) (h : i < boxes.length) :
    ((clusterLidarWithROI boxes lidarPoints shrinkFactor pMat rMat rtMat).getD i
        default).lidarPoints =
      (boxes.getD i default).lidarPoints ++
        lidarPoints.filter (fun p =>
          decide (enclosingIdxs boxes shrinkFactor (projectPoint pMat rMat rtMat p)
            = [i])) ∧
    (∀ p : LidarPoint,
      enclosingIdxs boxes shrinkFactor (projectPoint pMat rMat rtMat p) = [i] ↔
        ((enclosingIdxs boxes shrinkFactor (projectPoint pMat rMat rtMat p)).length = 1 ∧
          i ∈ enclosingIdxs boxes shrinkFactor (projectPoint pMat rMat rtMat p))) := by
  constructor
  · exact clusterFold_getD shrinkFactor pMat rMat rtMat lidarPoints boxes i h
  · intro p
    constructor
    · intro he
      rw [he]
      simp
    · rintro ⟨hl, hm⟩
      obtain ⟨a, ha⟩ := List.length_eq_one.mp hl
      rw [ha] at hm ⊢
      have hia : i = a := by simpa using hm
      rw [hia]

/-- Identity matrix used by the C4 witness (also serves as the `3 × 4`
projection, whose rows coincide with the first three identity rows). -/
def idMat : Nat → Nat → ℚ := fun i j => if i = j then 1 else 0

/-- Boxes of the C4 witness: ids `1` and `2` with horizontally
overlapping rectangles. -/
def boxesU : List BoundingBox :=
  [⟨1, ⟨0, 0, 10, 10⟩, [], []⟩, ⟨2, ⟨5, 0, 10, 10⟩, [], []⟩]

/-- Points of the C4 witness (all at depth `z = 1`, so the projected
pixel is just `(x, y)`): one in box `1` only, one in the overlap of both
boxes, one in neither. -/
def ptsU : List LidarPoint := [⟨2, 2, 1, 0⟩, ⟨7, 2, 1, 0⟩, ⟨20, 2, 1, 0⟩]

/-- C4 witness: with shrink factor `0` and identity calibration, box `1`
receives exactly the point projecting into it alone; the ambiguous point
(pixel `(7, 2)`, inside both rectangles) and the stray point (pixel
`(20, 2)`, inside neither) are dropped. -/
theorem clusterLidarWithROI_unique_spec_app :
    ((clusterLidarWithROI boxesU ptsU 0 idMat idMat idMat).getD 0 default).lidarPoints
      = [⟨2, 2, 1, 0⟩] :=
  ((clusterLidarWithROI_unique_spec boxesU ptsU 0 idMat idMat idMat 0
    (by with_unfolding_all decide)).1).trans (by with_unfolding_all decide)
